import Mathlib

/-
  Verification development for the stock-dashboard utilities.

  The functions of utils.py are shallowly embedded over exact rationals:
  a pandas Series of floats becomes a List of rationals, a missing value
  (NaN) becomes Option.none, and a DataFrame becomes a record of the five
  OHLCV columns plus an association list of derived columns.  IEEE special
  values produced by division are encoded by explicit case analysis where
  the source relies on them (see combineRS).  The square root used by the
  Bollinger-band standard deviation is not exactly representable on the
  rationals, so it is passed in as an abstract function parameter; every
  theorem below holds for an arbitrary such function.
-/

set_option maxRecDepth 100000

attribute [local semireducible] Rat.add Rat.mul Rat.sub Rat.inv Rat.ofScientific

/-- First-match lookup in an association list keyed by strings, as a Python
dict lookup (dict keys are unique, so first match is the match). -/
def lookupKV {α : Type} : List (String × α) → String → Option α
  | [], _ => none
  | (a, v) :: rest, k => if a = k then some v else lookupKV rest k

/-- Assignment of one column, as the pandas statement writing column n of a
frame: an existing column is overwritten in place, a new one is appended. -/
def setCol {α : Type} : List (String × α) → String → α → List (String × α)
  | [], n, v => [(n, v)]
  | (a, u) :: rest, n, v => if a = n then (a, v) :: rest else (a, u) :: setCol rest n v

/-- Sequence of column assignments, in order. -/
def setCols {α : Type} (m : List (String × α)) (ps : List (String × α)) : List (String × α) :=
  ps.foldl (fun acc p => setCol acc p.1 p.2) m

/-- The trailing window of width w ending at position i (both bounds
inclusive), as used by pandas rolling windows. -/
def windowAt (w : ℕ) (xs : List ℚ) (i : ℕ) : List ℚ :=
  (xs.take (i + 1)).drop (i + 1 - w)

/-- Series.rolling(window=w).mean(): defined exactly where the window is
fully populated (position i with w ≤ i+1), NaN (none) before that. -/
def rollingMean (w : ℕ) (xs : List ℚ) : List (Option ℚ) :=
  (List.range xs.length).map
    (fun i => if w ≤ i + 1 then some ((windowAt w xs i).sum / (w : ℚ)) else none)

/-- Series.rolling(window=w).std(): sample standard deviation (ddof = 1)
over the fully populated trailing window, NaN (none) before that.  The
square root is the abstract parameter sqrtFn. -/
def rollingStd (sqrtFn : ℚ → ℚ) (w : ℕ) (xs : List ℚ) : List (Option ℚ) :=
  (List.range xs.length).map
    (fun i =>
      if w ≤ i + 1 then
        some (sqrtFn (((windowAt w xs i).map
          (fun x => (x - (windowAt w xs i).sum / (w : ℚ)) ^ 2)).sum / ((w : ℚ) - 1)))
      else none)

/-- Tail of the exponentially weighted mean recurrence with smoothing
factor a: each output is (1-a)*previous + a*current. -/
def ewmGo (a : ℚ) : ℚ → List ℚ → List ℚ
  | _, [] => []
  | prev, x :: rest => ((1 - a) * prev + a * x) :: ewmGo a ((1 - a) * prev + a * x) rest

/-- Series.ewm(span=s, adjust=False).mean(): smoothing factor 2/(s+1), the
first output equals the first input. -/
def ewmMean (span : ℕ) (xs : List ℚ) : List ℚ :=
  match xs with
  | [] => []
  | x :: rest => x :: ewmGo (2 / ((span : ℚ) + 1)) x rest

/-- Series.diff(): NaN (none) at position 0, the difference to the previous
element afterwards. -/
def diffs : List ℚ → List (Option ℚ)
  | [] => []
  | x :: rest => none :: List.zipWith (fun cur prev => some (cur - prev)) rest (x :: rest)

/-- delta.where(delta > 0, 0): a NaN compares as not-greater, so the NaN at
position 0 is replaced by 0 as well. -/
def gainStep : Option ℚ → ℚ
  | none => 0
  | some d => if 0 < d then d else 0

/-- -delta.where(delta < 0, 0): kept (negated) only where strictly
negative; the NaN at position 0 again becomes 0. -/
def lossStep : Option ℚ → ℚ
  | none => 0
  | some d => if d < 0 then -d else 0

/-- The per-position gains fed to the RSI rolling mean. -/
def gains (prices : List ℚ) : List ℚ := (diffs prices).map gainStep

/-- The per-position losses fed to the RSI rolling mean. -/
def losses (prices : List ℚ) : List ℚ := (diffs prices).map lossStep

/-- One position of 100 - 100/(1 + gain/loss) under IEEE semantics, on the
rolling means at that position.  With loss = 0 the float quotient is +inf
(or NaN when gain is also 0): 100 - 100/(1 + inf) evaluates to 100, while
the NaN propagates; both cases are spelled out here.  A NaN on either
side (partial window) propagates to none. -/
def combineRS (og ol : Option ℚ) : Option ℚ :=
  match og, ol with
  | some g, some l =>
      if l = 0 then (if g = 0 then none else some 100)
      else some (100 - 100 / (1 + g / l))
  | _, _ => none

/-- calculate_rsi from utils.py: rolling means of gains and losses over
period observations, combined positionwise. -/
def calculate_rsi (prices : List ℚ) (period : ℕ) : List (Option ℚ) :=
  List.zipWith combineRS (rollingMean period (gains prices)) (rollingMean period (losses prices))

/-- The rolling mean of gains over the default 14 periods. -/
def avgGain (prices : List ℚ) : List (Option ℚ) := rollingMean 14 (gains prices)

/-- The rolling mean of losses over the default 14 periods. -/
def avgLoss (prices : List ℚ) : List (Option ℚ) := rollingMean 14 (losses prices)

/-- The value stored at position i of a series, none when the position is
out of range or holds NaN. -/
def atIdx (xs : List (Option ℚ)) (i : ℕ) : Option ℚ := (xs.get? i).join

/-- Floor of a rational as an integer, via floor division of numerator by
denominator. -/
def ratFloorZ (q : ℚ) : ℤ := q.num.fdiv (q.den : ℤ)

/-- Round to the nearest integer, ties to the even neighbour, as the
fixed-point formatting of Python does. -/
def roundHalfEven (q : ℚ) : ℤ :=
  if q - (ratFloorZ q : ℚ) < 1 / 2 then ratFloorZ q
  else if 1 / 2 < q - (ratFloorZ q : ℚ) then ratFloorZ q + 1
  else if ratFloorZ q % 2 = 0 then ratFloorZ q else ratFloorZ q + 1

/-- Two-decimal fixed rendering of a rational, as the Python format
specification .2f renders a number. -/
def formatFixed2 (q : ℚ) : String :=
  if q < 0 then
    "-" ++ toString ((roundHalfEven (|q| * 100)).toNat / 100) ++ "." ++
      (if (roundHalfEven (|q| * 100)).toNat % 100 < 10 then "0" else "") ++
      toString ((roundHalfEven (|q| * 100)).toNat % 100)
  else
    toString ((roundHalfEven (|q| * 100)).toNat / 100) ++ "." ++
      (if (roundHalfEven (|q| * 100)).toNat % 100 < 10 then "0" else "") ++
      toString ((roundHalfEven (|q| * 100)).toNat % 100)

/-- format_number from utils.py.  The source first returns N/A when the
input is NaN or equal to 0; a rational is never NaN, so only the zero test
appears here (the except branch likewise cannot fire on numeric input). -/
def format_number (number : ℚ) : String :=
  if number = 0 then "N/A"
  else if (1000000000 : ℚ) ≤ number then formatFixed2 (number / 1000000000) ++ "B"
  else if (1000000 : ℚ) ≤ number then formatFixed2 (number / 1000000) ++ "M"
  else if (1000 : ℚ) ≤ number then formatFixed2 (number / 1000) ++ "K"
  else formatFixed2 number

/-- A pandas DataFrame as used by this program: the five OHLCV columns the
data fetcher provides, plus the derived columns in assignment order.  A
derived cell is Option-valued because the rolling computations leave NaN
where the lookback window is not fully populated. -/
structure DataFrame where
  Open : List ℚ
  High : List ℚ
  Low : List ℚ
  Close : List ℚ
  Volume : List ℚ
  extra : List (String × List (Option ℚ))
deriving DecidableEq

/-- Reading a derived column of a frame. -/
def getCol? (df : DataFrame) (n : String) : Option (List (Option ℚ)) :=
  lookupKV df.extra n

/-- df.BB_middle + 2 * std, positionwise; NaN on either side propagates. -/
def optAdd2 (a b : Option ℚ) : Option ℚ :=
  match a, b with
  | some x, some y => some (x + 2 * y)
  | _, _ => none

/-- df.BB_middle - 2 * std, positionwise; NaN on either side propagates. -/
def optSub2 (a b : Option ℚ) : Option ℚ :=
  match a, b with
  | some x, some y => some (x - 2 * y)
  | _, _ => none

/-- The eight column assignments performed by calculate_metrics, in source
order, with the values each right-hand side computes from Close.  The
source reads the MACD and BB_middle columns back right after storing them;
those reads return exactly the values stored, which appear here directly. -/
def derivedCols (sqrtFn : ℚ → ℚ) (close : List ℚ) : List (String × List (Option ℚ)) :=
  [("SMA_20", rollingMean 20 close),
   ("SMA_50", rollingMean 50 close),
   ("RSI", calculate_rsi close 14),
   ("MACD", (List.zipWith (fun a b => a - b) (ewmMean 12 close) (ewmMean 26 close)).map some),
   ("Signal_Line",
     (ewmMean 9 (List.zipWith (fun a b => a - b) (ewmMean 12 close) (ewmMean 26 close))).map some),
   ("BB_middle", rollingMean 20 close),
   ("BB_upper", List.zipWith optAdd2 (rollingMean 20 close) (rollingStd sqrtFn 20 close)),
   ("BB_lower", List.zipWith optSub2 (rollingMean 20 close) (rollingStd sqrtFn 20 close))]

/-- calculate_metrics from utils.py: the eight derived-column assignments
applied to the frame, in order, and the frame returned. -/
def calculate_metrics (sqrtFn : ℚ → ℚ) (df : DataFrame) : DataFrame :=
  { df with extra := setCols df.extra (derivedCols sqrtFn df.Close) }

/-- The caller-visible state of the argument frame after calculate_metrics
returns.  In the source each assignment df[c] = ... mutates the frame
object in place and the final statement returns that same object, so the
caller's frame after the call is the returned frame. -/
def calculate_metrics_inputAfter (sqrtFn : ℚ → ℚ) (df : DataFrame) : DataFrame :=
  calculate_metrics sqrtFn df

/-- One trace added to the figure: its plotly constructor, its legend name,
the subplot cell it is attached to, and (for the volume bars) the
per-session marker colors. -/
structure Trace where
  kind : String
  name : String
  row : ℕ
  col : ℕ
  markerColors : List String
deriving DecidableEq

/-- A horizontal reference line with its annotation, attached to a cell. -/
structure HLine where
  y : ℚ
  row : ℕ
  col : ℕ
  annotation : String
deriving DecidableEq

/-- The figure specification create_price_chart assembles: the subplot
grid, the traces added to it, the reference lines, and the fixed layout
theme. -/
structure Figure where
  rows : ℕ
  cols : ℕ
  sharedXaxes : Bool
  verticalSpacing : ℚ
  rowHeights : List ℚ
  traces : List Trace
  hlines : List HLine
  template : String
  paperBgcolor : String
  plotBgcolor : String
  height : ℕ
deriving DecidableEq

/-- create_price_chart from utils.py: three stacked subplots with height
ratios 0.5/0.25/0.25; candlestick, both Bollinger bands and both moving
averages on row 1, the volume bars on row 2 colored green where a session
closes at or above its open and red otherwise, the RSI line with the 70/30
reference lines on row 3, over the dark fixed theme.  The symbol argument
is accepted and, as in the source body, never used. -/
def create_price_chart (df : DataFrame) (symbol : String) : Figure :=
  { rows := 3
    cols := 1
    sharedXaxes := true
    verticalSpacing := 1 / 10
    rowHeights := [1 / 2, 1 / 4, 1 / 4]
    traces :=
      [⟨"Candlestick", "Price", 1, 1, []⟩,
       ⟨"Scatter", "Upper Band", 1, 1, []⟩,
       ⟨"Scatter", "Lower Band", 1, 1, []⟩,
       ⟨"Scatter", "20-Day MA", 1, 1, []⟩,
       ⟨"Scatter", "50-Day MA", 1, 1, []⟩,
       ⟨"Bar", "Volume", 2, 1,
         List.zipWith (fun c o => if o ≤ c then "#4BFF4B" else "#FF4B4B") df.Close df.Open⟩,
       ⟨"Scatter", "RSI", 3, 1, []⟩]
    hlines := [⟨70, 3, 1, "Overbought (70)"⟩, ⟨30, 3, 1, "Oversold (30)"⟩]
    template := "plotly_dark"
    paperBgcolor := "#1E1E1E"
    plotBgcolor := "#2D2D2D"
    height := 800 }

/-- The provider metadata mapping: the ticker symbol it reports and the
numeric fields, any of which may be absent. -/
structure Info where
  symbol : String
  fields : List (String × ℚ)
deriving DecidableEq

/-- info.get(k, 0): the stored value, or 0 when the field is absent. -/
def Info.getD (info : Info) (k : String) : ℚ :=
  (lookupKV info.fields k).getD 0

/-- Substring test for the market suffix .NS, as the Python membership
test on the symbol string. -/
def hasNS : List Char → Bool
  | [] => false
  | c :: rest => List.isPrefixOf ['.', 'N', 'S'] (c :: rest) || hasNS rest

/-- The currency symbol chosen from the market suffix of the reported
ticker symbol. -/
def currencySymbol (info : Info) : String :=
  if hasNS info.symbol.data then "₹" else "$"

/-- get_financial_metrics from utils.py: the mapping of display labels to
rendered strings, in source order. -/
def get_financial_metrics (info : Info) : List (String × String) :=
  [("Market Cap", currencySymbol info ++ format_number (info.getD "marketCap")),
   ("P/E Ratio", format_number (info.getD "trailingPE")),
   ("EPS (TTM)", currencySymbol info ++ format_number (info.getD "trailingEps")),
   ("Beta", format_number (info.getD "beta")),
   ("Dividend Yield",
     match lookupKV info.fields "dividendYield" with
     | none => "N/A"
     | some v => if v = 0 then "N/A" else format_number (v * 100) ++ "%"),
   ("Revenue (TTM)", currencySymbol info ++ format_number (info.getD "totalRevenue")),
   ("Profit Margin", format_number (info.getD "profitMargins" * 100) ++ "%"),
   ("Operating Margin", format_number (info.getD "operatingMargins" * 100) ++ "%"),
   ("ROE", format_number (info.getD "returnOnEquity" * 100) ++ "%"),
   ("ROA", format_number (info.getD "returnOnAssets" * 100) ++ "%"),
   ("Debt to Equity", format_number (info.getD "debtToEquity")),
   ("Current Ratio", format_number (info.getD "currentRatio"))]

/-- A one-row frame with no derived columns, as a concrete input. -/
def dfOne : DataFrame := ⟨[1], [1], [1], [1], [1], []⟩

/-- A three-row frame with no derived columns, as a concrete input. -/
def dfThree : DataFrame := ⟨[1, 2, 3], [2, 3, 4], [1, 1, 2], [2, 3, 4], [10, 20, 30], []⟩

/-- Fourteen strictly increasing closing prices, enough to populate the
RSI lookback window once. -/
def upPrices : List ℚ := [1, 2, 3, 4, 5, 6, 7, 8, 9, 10, 11, 12, 13, 14]

/-- Fourteen constant closing prices: every delta is zero. -/
def flatPrices : List ℚ := List.replicate 14 100

/-- Provider metadata with no fields at all. -/
def emptyInfo : Info := ⟨"", []⟩

/-- Identity function standing in for the abstract square root when a
concrete instantiation is needed. -/
def sqrtId : ℚ → ℚ := fun q => q

/- ------------------------------------------------------------------ -/
/- Supporting lemmas about the column map.                             -/
/- ------------------------------------------------------------------ -/

theorem lookupKV_setCol_self {α : Type} (m : List (String × α)) (n : String) (v : α) :
    lookupKV (setCol m n v) n = some v := by
  induction m with
  | nil => simp [setCol, lookupKV]
  | cons p rest ih =>
      obtain ⟨a, u⟩ := p
      by_cases h : a = n <;> simp [setCol, lookupKV, h, ih]

theorem lookupKV_setCol_ne {α : Type} {k n : String} (h : k ≠ n)
    (m : List (String × α)) (v : α) :
    lookupKV (setCol m n v) k = lookupKV m k := by
  have hnk : n ≠ k := fun hn => h hn.symm
  induction m with
  | nil => simp [setCol, lookupKV, hnk]
  | cons p rest ih =>
      obtain ⟨a, u⟩ := p
      by_cases ha : a = n
      · subst ha
        simp [setCol, lookupKV, hnk]
      · simp [setCol, lookupKV, ha, ih]

theorem setCol_of_lookup_eq {α : Type} {m : List (String × α)} {n : String} {v : α}
    (h : lookupKV m n = some v) : setCol m n v = m := by
  induction m with
  | nil => simp [lookupKV] at h
  | cons p rest ih =>
      obtain ⟨a, u⟩ := p
      by_cases ha : a = n
      · subst ha
        simp [lookupKV] at h
        simp [setCol, h]
      · simp [lookupKV, ha] at h
        simp [setCol, ha, ih h]

theorem lookupKV_setCols_not_mem {α : Type} (ps : List (String × α))
    {k : String} (h : k ∉ ps.map Prod.fst) (m : List (String × α)) :
    lookupKV (setCols m ps) k = lookupKV m k := by
  induction ps generalizing m with
  | nil => rfl
  | cons p rest ih =>
      obtain ⟨n, v⟩ := p
      simp only [List.map_cons, List.mem_cons, not_or] at h
      show lookupKV (setCols (setCol m n v) rest) k = lookupKV m k
      rw [ih h.2, lookupKV_setCol_ne h.1]

theorem lookupKV_setCols_mem {α : Type} (ps : List (String × α))
    (hnd : (ps.map Prod.fst).Nodup) {p : String × α} (hp : p ∈ ps)
    (m : List (String × α)) :
    lookupKV (setCols m ps) p.1 = some p.2 := by
  induction ps generalizing m with
  | nil => simp at hp
  | cons q rest ih =>
      obtain ⟨n, v⟩ := q
      simp only [List.map_cons, List.nodup_cons] at hnd
      rcases List.mem_cons.mp hp with h1 | h2
      · subst h1
        show lookupKV (setCols (setCol m n v) rest) n = some v
        rw [lookupKV_setCols_not_mem rest hnd.1, lookupKV_setCol_self]
      · exact ih hnd.2 h2 (setCol m n v)

theorem setCols_no_op {α : Type} (ps : List (String × α)) (m : List (String × α))
    (h : ∀ p ∈ ps, lookupKV m p.1 = some p.2) : setCols m ps = m := by
  induction ps with
  | nil => rfl
  | cons p rest ih =>
      obtain ⟨n, v⟩ := p
      show setCols (setCol m n v) rest = m
      rw [setCol_of_lookup_eq (h (n, v) (List.mem_cons_self _ _))]
      exact ih (fun q hq => h q (List.mem_cons_of_mem _ hq))

theorem setCols_idem {α : Type} (ps : List (String × α))
    (hnd : (ps.map Prod.fst).Nodup) (m : List (String × α)) :
    setCols (setCols m ps) ps = setCols m ps :=
  setCols_no_op ps _ (fun p hp => lookupKV_setCols_mem ps hnd hp m)

theorem derivedCols_names (s : ℚ → ℚ) (close : List ℚ) :
    (derivedCols s close).map Prod.fst =
      ["SMA_20", "SMA_50", "RSI", "MACD", "Signal_Line", "BB_middle", "BB_upper", "BB_lower"] :=
  rfl

/- ------------------------------------------------------------------ -/
/- Supporting lemmas about rolling windows and positionwise series.    -/
/- ------------------------------------------------------------------ -/

theorem zipWith_get? {α β γ : Type} (f : α → β → γ) (as : List α) (bs : List β) (i : ℕ) :
    (List.zipWith f as bs).get? i =
      match as.get? i, bs.get? i with
      | some a, some b => some (f a b)
      | _, _ => none := by
  induction as generalizing bs i with
  | nil => cases bs <;> cases i <;> rfl
  | cons a rest ih =>
      cases bs with
      | nil =>
          cases i with
          | zero => rfl
          | succ j => cases hr : (a :: rest).get? (j + 1) <;> simp [hr]
      | cons b bs' => cases i with
        | zero => rfl
        | succ j => simpa using ih bs' j

theorem atIdx_rollingMean {w : ℕ} {xs : List ℚ} {i : ℕ} {v : ℚ} :
    atIdx (rollingMean w xs) i = some v ↔
      i < xs.length ∧ w ≤ i + 1 ∧ v = (windowAt w xs i).sum / (w : ℚ) := by
  unfold atIdx rollingMean
  constructor
  · intro h
    by_cases hi : i < xs.length
    · rw [List.get?_map, List.get?_range hi] at h
      by_cases hw : w ≤ i + 1
      · refine ⟨hi, hw, ?_⟩
        simp [hw] at h
        exact h.symm
      · simp [hw] at h
    · rw [List.get?_map, List.get?_eq_none.mpr (by simpa using Nat.le_of_not_lt hi)] at h
      simp at h
  · rintro ⟨hi, hw, rfl⟩
    rw [List.get?_map, List.get?_range hi]
    simp [hw]

theorem windowAt_subset {w : ℕ} {xs : List ℚ} {i : ℕ} :
    ∀ x ∈ windowAt w xs i, x ∈ xs :=
  fun x hx => List.take_subset _ _ (List.drop_subset _ _ hx)

theorem rollingMean_all_none {w : ℕ} {xs : List ℚ} (h : xs.length < w) :
    ∀ x ∈ rollingMean w xs, x = none := by
  intro x hx
  simp only [rollingMean, List.mem_map, List.mem_range] at hx
  obtain ⟨i, hi, hx⟩ := hx
  rw [if_neg (by omega)] at hx
  exact hx.symm

theorem rollingStd_all_none {s : ℚ → ℚ} {w : ℕ} {xs : List ℚ} (h : xs.length < w) :
    ∀ x ∈ rollingStd s w xs, x = none := by
  intro x hx
  simp only [rollingStd, List.mem_map, List.mem_range] at hx
  obtain ⟨i, hi, hx⟩ := hx
  rw [if_neg (by omega)] at hx
  exact hx.symm

theorem zipWith_all_none_left (f : Option ℚ → Option ℚ → Option ℚ)
    (hf : ∀ b, f none b = none) :
    ∀ (as bs : List (Option ℚ)), (∀ a ∈ as, a = none) →
      ∀ x ∈ List.zipWith f as bs, x = none := by
  intro as
  induction as with
  | nil => intro bs _ x hx; simp at hx
  | cons a rest ih =>
      intro bs h x hx
      cases bs with
      | nil => simp at hx
      | cons b bs' =>
          rcases List.mem_cons.mp hx with h1 | h2
          · rw [h1, h a (List.mem_cons_self _ _), hf]
          · exact ih bs' (fun y hy => h y (List.mem_cons_of_mem _ hy)) x h2

theorem length_rollingMean (w : ℕ) (xs : List ℚ) :
    (rollingMean w xs).length = xs.length := by
  simp [rollingMean]

theorem length_rollingStd (s : ℚ → ℚ) (w : ℕ) (xs : List ℚ) :
    (rollingStd s w xs).length = xs.length := by
  simp [rollingStd]

/- ------------------------------------------------------------------ -/
/- Supporting lemmas about gains, losses and the RSI combination.      -/
/- ------------------------------------------------------------------ -/

theorem gains_nonneg (prices : List ℚ) : ∀ x ∈ gains prices, 0 ≤ x := by
  intro x hx
  simp only [gains, List.mem_map] at hx
  obtain ⟨od, _, rfl⟩ := hx
  cases od with
  | none => simp [gainStep]
  | some d =>
      simp only [gainStep]
      split
      · linarith
      · exact le_refl 0

theorem losses_nonneg (prices : List ℚ) : ∀ x ∈ losses prices, 0 ≤ x := by
  intro x hx
  simp only [losses, List.mem_map] at hx
  obtain ⟨od, _, rfl⟩ := hx
  cases od with
  | none => simp [lossStep]
  | some d =>
      simp only [lossStep]
      split
      · linarith
      · exact le_refl 0

theorem atIdx_rollingMean_nonneg {w : ℕ} {xs : List ℚ} {i : ℕ} {v : ℚ}
    (hxs : ∀ x ∈ xs, 0 ≤ x) (h : atIdx (rollingMean w xs) i = some v) : 0 ≤ v := by
  obtain ⟨hi, hw, rfl⟩ := atIdx_rollingMean.mp h
  exact div_nonneg
    (List.sum_nonneg (fun x hxm => hxs x (windowAt_subset x hxm)))
    (by positivity)

theorem diffs_zip_nonneg (rest : List ℚ) :
    ∀ a : ℚ, List.Chain' (· ≤ ·) (a :: rest) →
      ∀ od ∈ List.zipWith (fun cur prev => some (cur - prev)) rest (a :: rest),
        ∀ d : ℚ, od = some d → 0 ≤ d := by
  induction rest with
  | nil => intro a _ od hod; simp at hod
  | cons b rest' ih =>
      intro a hc od hod d hd
      rw [List.chain'_cons] at hc
      rcases List.mem_cons.mp hod with h1 | h2
      · rw [h1] at hd
        obtain rfl : d = b - a := by simpa using hd.symm
        linarith [hc.1]
      · exact ih b hc.2 od h2 d hd

theorem diffs_nonneg {p : List ℚ} (hc : List.Chain' (· ≤ ·) p) :
    ∀ od ∈ diffs p, ∀ d : ℚ, od = some d → 0 ≤ d := by
  cases p with
  | nil => simp [diffs]
  | cons x rest =>
      intro od hod d hd
      rcases List.mem_cons.mp hod with h1 | h2
      · rw [h1] at hd; simp at hd
      · exact diffs_zip_nonneg rest x hc od h2 d hd

theorem losses_eq_zero {p : List ℚ} (hc : List.Chain' (· ≤ ·) p) :
    ∀ x ∈ losses p, x = 0 := by
  intro x hx
  simp only [losses, List.mem_map] at hx
  obtain ⟨od, hod, rfl⟩ := hx
  cases od with
  | none => simp [lossStep]
  | some d =>
      have hd : 0 ≤ d := diffs_nonneg hc (some d) hod d rfl
      simp only [lossStep]
      rw [if_neg (by linarith)]

theorem avgLoss_eq_zero {prices : List ℚ} {i : ℕ} {l : ℚ}
    (hc : List.Chain' (· ≤ ·) prices) (h : atIdx (avgLoss prices) i = some l) :
    l = 0 := by
  obtain ⟨hi, hw, rfl⟩ := atIdx_rollingMean.mp h
  rw [List.sum_eq_zero (fun x hx => losses_eq_zero hc x (windowAt_subset x hx))]
  simp

theorem atIdx_calculate_rsi_elim {prices : List ℚ} {i : ℕ} {r : ℚ}
    (h : atIdx (calculate_rsi prices 14) i = some r) :
    ∃ g l, atIdx (avgGain prices) i = some g ∧ atIdx (avgLoss prices) i = some l ∧
      combineRS (some g) (some l) = some r := by
  unfold calculate_rsi atIdx at h
  rw [zipWith_get?] at h
  cases hG : (rollingMean 14 (gains prices)).get? i with
  | none => rw [hG] at h; simp at h
  | some og =>
      cases hL : (rollingMean 14 (losses prices)).get? i with
      | none => rw [hG, hL] at h; simp at h
      | some ol =>
          rw [hG, hL] at h
          simp only [Option.join] at h
          cases og with
          | none => simp [combineRS] at h
          | some g =>
              cases ol with
              | none => simp [combineRS] at h
              | some l =>
                  refine ⟨g, l, ?_, ?_, ?_⟩
                  · show ((rollingMean 14 (gains prices)).get? i).join = some g
                    rw [hG]; rfl
                  · show ((rollingMean 14 (losses prices)).get? i).join = some l
                    rw [hL]; rfl
                  · simpa using h

theorem combineRS_bounds {g l r : ℚ} (hg : 0 ≤ g) (hl : 0 ≤ l)
    (h : combineRS (some g) (some l) = some r) : 0 ≤ r ∧ r ≤ 100 := by
  simp only [combineRS] at h
  by_cases hl0 : l = 0
  · rw [if_pos hl0] at h
    by_cases hg0 : g = 0
    · simp [hg0] at h
    · rw [if_neg hg0] at h
      obtain rfl : r = 100 := by simpa using h.symm
      norm_num
  · rw [if_neg hl0] at h
    obtain rfl : r = 100 - 100 / (1 + g / l) := by simpa using h.symm
    have hlpos : 0 < l := lt_of_le_of_ne hl (fun he => hl0 he.symm)
    have hrs : 0 ≤ g / l := div_nonneg hg hlpos.le
    have h1 : (1 : ℚ) ≤ 1 + g / l := by linarith
    have hle : 100 / (1 + g / l) ≤ 100 := div_le_self (by norm_num) h1
    have hge : 0 ≤ 100 / (1 + g / l) := div_nonneg (by norm_num) (by linarith)
    constructor <;> linarith

theorem formatFixed2_neg_ne {q : ℚ} (h : q < 0) : formatFixed2 q ≠ "N/A" := by
  rw [formatFixed2, if_pos h]
  intro hc
  have hdata := congrArg String.data hc
  simp [String.data_append] at hdata

/- ------------------------------------------------------------------ -/
/- Claim theorems.                                                     -/
/- ------------------------------------------------------------------ -/

/-- C5: format_number maps 0 to "N/A", 1500 to "1.50K", 2500000 to
"2.50M", 3200000000 to "3.20B", and 42.5 to "42.50". -/
theorem format_number_examples :
    format_number 0 = "N/A" ∧ format_number 1500 = "1.50K" ∧
    format_number 2500000 = "2.50M" ∧ format_number 3200000000 = "3.20B" ∧
    format_number (42.5 : ℚ) = "42.50" :=
  ⟨by decide, by decide, by decide, by decide, by decide⟩

/-- C10: for every strictly negative input, format_number returns the
plain two-decimal rendering of the number (no K/M/B suffix branch is
taken) and never the string N/A. -/
theorem format_number_negative {q : ℚ} (h : q < 0) :
    format_number q = formatFixed2 q ∧ format_number q ≠ "N/A" := by
  have h0 : q ≠ 0 := ne_of_lt h
  have h9 : ¬ ((1000000000 : ℚ) ≤ q) := by linarith
  have h6 : ¬ ((1000000 : ℚ) ≤ q) := by linarith
  have h3 : ¬ ((1000 : ℚ) ≤ q) := by linarith
  have heq : format_number q = formatFixed2 q := by
    simp [format_number, h0, h9, h6, h3]
  exact ⟨heq, heq ▸ formatFixed2_neg_ne h⟩

/-- Witness for C10 at the concrete input -2500000: the rendering is
"-2500000.00", with no suffix and not N/A. -/
theorem format_number_negative_witness :
    (-2500000 : ℚ) < 0 ∧ format_number (-2500000) = formatFixed2 (-2500000) ∧
    format_number (-2500000 : ℚ) ≠ "N/A" ∧ formatFixed2 (-2500000 : ℚ) = "-2500000.00" :=
  ⟨by decide, (format_number_negative (by decide)).1,
   (format_number_negative (by decide)).2, by decide⟩

/-- C8: for every frame with at least one row, create_price_chart builds
a figure of exactly 3 stacked panels in one column with height ratios
0.5, 0.25, 0.25. -/
theorem create_price_chart_three_panels (df : DataFrame) (symbol : String)
    (h : 1 ≤ df.Close.length) :
    (create_price_chart df symbol).rows = 3 ∧
    (create_price_chart df symbol).cols = 1 ∧
    (create_price_chart df symbol).rowHeights = [1 / 2, 1 / 4, 1 / 4] :=
  ⟨rfl, rfl, rfl⟩

/-- Witness for C8 at a concrete three-row frame. -/
theorem create_price_chart_three_panels_witness :
    1 ≤ dfThree.Close.length ∧
    (create_price_chart dfThree "TEST").rows = 3 ∧
    (create_price_chart dfThree "TEST").cols = 1 ∧
    (create_price_chart dfThree "TEST").rowHeights = [1 / 2, 1 / 4, 1 / 4] :=
  ⟨by decide, (create_price_chart_three_panels dfThree "TEST" (by decide)).1,
   (create_price_chart_three_panels dfThree "TEST" (by decide)).2.1,
   (create_price_chart_three_panels dfThree "TEST" (by decide)).2.2⟩

/-- C2 (amended): calculate_metrics performs no I/O and is deterministic,
but it is not pure in the claimed sense: the column assignments mutate the
caller's frame in place, so after the call the caller's frame is the
returned frame; the base OHLCV columns are left unchanged. -/
theorem calculate_metrics_deterministic_but_mutating (s : ℚ → ℚ) (df : DataFrame) :
    calculate_metrics_inputAfter s df = calculate_metrics s df ∧
    (calculate_metrics s df).Open = df.Open ∧
    (calculate_metrics s df).High = df.High ∧
    (calculate_metrics s df).Low = df.Low ∧
    (calculate_metrics s df).Close = df.Close ∧
    (calculate_metrics s df).Volume = df.Volume :=
  ⟨rfl, rfl, rfl, rfl, rfl, rfl⟩

/-- C2 counterexample: on a one-row frame with no derived columns, the
caller's frame after the call differs from the frame passed in — the
eight derived columns have appeared in it. -/
theorem calculate_metrics_mutates_input :
    calculate_metrics_inputAfter sqrtId dfOne ≠ dfOne := by decide

/-- C9: calculate_metrics is idempotent — applying it to its own output
recomputes every derived column to the identical value and adds no
duplicate columns, so the table is unchanged. -/
theorem calculate_metrics_idempotent (s : ℚ → ℚ) (df : DataFrame) :
    calculate_metrics s (calculate_metrics s df) = calculate_metrics s df := by
  have hnd : ((derivedCols s df.Close).map Prod.fst).Nodup := by
    rw [derivedCols_names]; decide
  exact congrArg (fun e => DataFrame.mk df.Open df.High df.Low df.Close df.Volume e)
    (setCols_idem (derivedCols s df.Close) hnd df.extra)

/-- C3: the MACD column stored by calculate_metrics is exactly the
12-span exponential moving average of Close minus the 26-span one, and
the Signal_Line column is the 9-span exponential moving average of that
difference. -/
theorem macd_signal_line_spec (s : ℚ → ℚ) (df : DataFrame) :
    getCol? (calculate_metrics s df) "MACD" =
      some ((List.zipWith (fun a b => a - b)
        (ewmMean 12 df.Close) (ewmMean 26 df.Close)).map some) ∧
    getCol? (calculate_metrics s df) "Signal_Line" =
      some ((ewmMean 9 (List.zipWith (fun a b => a - b)
        (ewmMean 12 df.Close) (ewmMean 26 df.Close))).map some) := by
  have hnd : ((derivedCols s df.Close).map Prod.fst).Nodup := by
    rw [derivedCols_names]; decide
  constructor
  · have hmem : ("MACD", (List.zipWith (fun a b => a - b)
        (ewmMean 12 df.Close) (ewmMean 26 df.Close)).map some) ∈ derivedCols s df.Close := by
      simp [derivedCols]
    exact lookupKV_setCols_mem _ hnd hmem df.extra
  · have hmem : ("Signal_Line", (ewmMean 9 (List.zipWith (fun a b => a - b)
        (ewmMean 12 df.Close) (ewmMean 26 df.Close))).map some) ∈ derivedCols s df.Close := by
      simp [derivedCols]
    exact lookupKV_setCols_mem _ hnd hmem df.extra

/-- C4: on a frame with at least 1 and fewer than 20 rows,
calculate_metrics succeeds and the SMA_20, BB_middle, BB_upper and
BB_lower columns consist entirely of the undefined marker. -/
theorem short_input_bollinger_undefined (s : ℚ → ℚ) (df : DataFrame)
    (h1 : 1 ≤ df.Close.length) (h2 : df.Close.length < 20) :
    (∃ col, getCol? (calculate_metrics s df) "SMA_20" = some col ∧
      col.length = df.Close.length ∧ ∀ x ∈ col, x = none) ∧
    (∃ col, getCol? (calculate_metrics s df) "BB_middle" = some col ∧
      col.length = df.Close.length ∧ ∀ x ∈ col, x = none) ∧
    (∃ col, getCol? (calculate_metrics s df) "BB_upper" = some col ∧
      col.length = df.Close.length ∧ ∀ x ∈ col, x = none) ∧
    (∃ col, getCol? (calculate_metrics s df) "BB_lower" = some col ∧
      col.length = df.Close.length ∧ ∀ x ∈ col, x = none) := by
  have hnd : ((derivedCols s df.Close).map Prod.fst).Nodup := by
    rw [derivedCols_names]; decide
  have hlen : ∀ f : Option ℚ → Option ℚ → Option ℚ,
      (List.zipWith f (rollingMean 20 df.Close) (rollingStd s 20 df.Close)).length =
        df.Close.length := by
    intro f
    rw [List.length_zipWith, length_rollingMean, length_rollingStd, min_self]
  refine ⟨⟨rollingMean 20 df.Close, ?_, length_rollingMean _ _, rollingMean_all_none h2⟩,
    ⟨rollingMean 20 df.Close, ?_, length_rollingMean _ _, rollingMean_all_none h2⟩,
    ⟨List.zipWith optAdd2 (rollingMean 20 df.Close) (rollingStd s 20 df.Close), ?_, hlen _,
      zipWith_all_none_left optAdd2 (fun b => by cases b <;> rfl) _ _ (rollingMean_all_none h2)⟩,
    ⟨List.zipWith optSub2 (rollingMean 20 df.Close) (rollingStd s 20 df.Close), ?_, hlen _,
      zipWith_all_none_left optSub2 (fun b => by cases b <;> rfl) _ _ (rollingMean_all_none h2)⟩⟩
  · exact lookupKV_setCols_mem _ hnd
      (show ("SMA_20", rollingMean 20 df.Close) ∈ derivedCols s df.Close by
        simp [derivedCols]) df.extra
  · exact lookupKV_setCols_mem _ hnd
      (show ("BB_middle", rollingMean 20 df.Close) ∈ derivedCols s df.Close by
        simp [derivedCols]) df.extra
  · exact lookupKV_setCols_mem _ hnd
      (show ("BB_upper", List.zipWith optAdd2 (rollingMean 20 df.Close)
          (rollingStd s 20 df.Close)) ∈ derivedCols s df.Close by
        simp [derivedCols]) df.extra
  · exact lookupKV_setCols_mem _ hnd
      (show ("BB_lower", List.zipWith optSub2 (rollingMean 20 df.Close)
          (rollingStd s 20 df.Close)) ∈ derivedCols s df.Close by
        simp [derivedCols]) df.extra

/-- Witness for C4 at a concrete three-row frame. -/
theorem short_input_bollinger_undefined_witness :
    1 ≤ dfThree.Close.length ∧ dfThree.Close.length < 20 ∧
    (∃ col, getCol? (calculate_metrics sqrtId dfThree) "SMA_20" = some col ∧
      col.length = dfThree.Close.length ∧ ∀ x ∈ col, x = none) ∧
    (∃ col, getCol? (calculate_metrics sqrtId dfThree) "BB_middle" = some col ∧
      col.length = dfThree.Close.length ∧ ∀ x ∈ col, x = none) ∧
    (∃ col, getCol? (calculate_metrics sqrtId dfThree) "BB_upper" = some col ∧
      col.length = dfThree.Close.length ∧ ∀ x ∈ col, x = none) ∧
    (∃ col, getCol? (calculate_metrics sqrtId dfThree) "BB_lower" = some col ∧
      col.length = dfThree.Close.length ∧ ∀ x ∈ col, x = none) :=
  ⟨by decide, by decide,
    (short_input_bollinger_undefined sqrtId dfThree (by decide) (by decide)).1,
    (short_input_bollinger_undefined sqrtId dfThree (by decide) (by decide)).2.1,
    (short_input_bollinger_undefined sqrtId dfThree (by decide) (by decide)).2.2.1,
    (short_input_bollinger_undefined sqrtId dfThree (by decide) (by decide)).2.2.2⟩

/-- C1 counterexample: on fourteen constant prices the 14-period average
loss is defined and zero at position 13 (the first fully populated
position), yet calculate_rsi is undefined there — the average gain is
also zero, 0/0 is NaN, and the NaN propagates instead of yielding 100. -/
theorem rsi_flat_series_undefined :
    atIdx (avgLoss flatPrices) 13 = some 0 ∧
    atIdx (calculate_rsi flatPrices 14) 13 ≠ some 100 ∧
    atIdx (calculate_rsi flatPrices 14) 13 = none :=
  ⟨by decide, by decide, by decide⟩

/-- C1 (amended): at a position where the 14-period rolling means are
populated and the average loss is zero, calculate_rsi yields 100 whenever
the average gain is nonzero; when the average gain is also zero the
result is the undefined marker, not 100. -/
theorem rsi_zero_loss (prices : List ℚ) (i : ℕ) (g : ℚ)
    (hg : atIdx (avgGain prices) i = some g)
    (hl : atIdx (avgLoss prices) i = some 0) :
    (g ≠ 0 → atIdx (calculate_rsi prices 14) i = some 100) ∧
    (g = 0 → atIdx (calculate_rsi prices 14) i = none) := by
  have hg' : (rollingMean 14 (gains prices)).get? i = some (some g) :=
    Option.join_eq_some.mp hg
  have hl' : (rollingMean 14 (losses prices)).get? i = some (some 0) :=
    Option.join_eq_some.mp hl
  have hmain : atIdx (calculate_rsi prices 14) i = combineRS (some g) (some 0) := by
    unfold calculate_rsi atIdx
    rw [zipWith_get?, hg', hl']
    rfl
  constructor
  · intro hgne
    rw [hmain]
    simp [combineRS, hgne]
  · intro hgeq
    rw [hmain]
    simp [combineRS, hgeq]

/-- Witness for C1 at fourteen strictly increasing prices: at position 13
the average gain is 13/14, the average loss is 0, and the RSI is 100. -/
theorem rsi_zero_loss_witness :
    atIdx (avgGain upPrices) 13 = some (13 / 14) ∧
    atIdx (avgLoss upPrices) 13 = some 0 ∧
    atIdx (calculate_rsi upPrices 14) 13 = some 100 :=
  ⟨by decide, by decide,
    (rsi_zero_loss upPrices 13 (13 / 14) (by decide) (by decide)).1 (by decide)⟩

/-- C7: every defined RSI value, for any price series, lies in [0, 100];
and on a strictly increasing Close series every defined RSI value equals
100. -/
theorem rsi_bounded_and_increasing_saturates (prices : List ℚ) :
    (∀ i r, atIdx (calculate_rsi prices 14) i = some r → 0 ≤ r ∧ r ≤ 100) ∧
    (List.Chain' (fun a b : ℚ => a < b) prices →
      ∀ i r, atIdx (calculate_rsi prices 14) i = some r → r = 100) := by
  constructor
  · intro i r h
    obtain ⟨g, l, hg, hl, hc⟩ := atIdx_calculate_rsi_elim h
    exact combineRS_bounds
      (atIdx_rollingMean_nonneg (gains_nonneg prices) hg)
      (atIdx_rollingMean_nonneg (losses_nonneg prices) hl) hc
  · intro hmono i r h
    obtain ⟨g, l, hg, hl, hc⟩ := atIdx_calculate_rsi_elim h
    have hl0 : l = 0 :=
      avgLoss_eq_zero (hmono.imp (fun a b hab => le_of_lt hab)) hl
    subst hl0
    simp only [combineRS, if_pos rfl] at hc
    by_cases hg0 : g = 0
    · rw [if_pos hg0] at hc
      simp at hc
    · rw [if_neg hg0] at hc
      simpa using hc.symm

/-- Witness for C7 at fourteen strictly increasing prices: position 13 is
defined with value 100, which both bounds and the saturation conclusion
accept. -/
theorem rsi_bounded_and_increasing_saturates_witness :
    List.Chain' (fun a b : ℚ => a < b) upPrices ∧
    atIdx (calculate_rsi upPrices 14) 13 = some 100 ∧
    ((0 : ℚ) ≤ 100 ∧ (100 : ℚ) ≤ 100) ∧ (100 : ℚ) = 100 := by
  have h : atIdx (calculate_rsi upPrices 14) 13 = some 100 := by decide
  have hchain : List.Chain' (fun a b : ℚ => a < b) upPrices := by
    norm_num [upPrices, List.chain'_cons]
  exact ⟨hchain, h,
    (rsi_bounded_and_increasing_saturates upPrices).1 13 100 h,
    (rsi_bounded_and_increasing_saturates upPrices).2 hchain 13 100 h⟩

/-- C6 counterexample: with the marketCap and profitMargins fields absent,
the rendered Market Cap value is "$N/A" (currency symbol attached) and the
rendered Profit Margin value is "N/A%" (percent sign attached), not the
bare string "N/A". -/
theorem financial_metrics_adorned :
    lookupKV (get_financial_metrics emptyInfo) "Market Cap" = some "$N/A" ∧
    "$N/A" ≠ "N/A" ∧
    lookupKV (get_financial_metrics emptyInfo) "Profit Margin" = some "N/A%" ∧
    "N/A%" ≠ "N/A" :=
  ⟨by decide, by decide, by decide, by decide⟩

/-- C6 (amended): when a source field is absent or zero, the plain values
(P/E Ratio, Beta, Debt to Equity, Current Ratio, Dividend Yield) are
rendered as the bare string N/A, while the currency-prefixed values
(Market Cap, EPS, Revenue) become the currency symbol followed by N/A and
the percent-suffixed values (Profit Margin, Operating Margin, ROE, ROA)
become N/A%. -/
theorem financial_metrics_na_rendering (info : Info)
    (hmc : info.getD "marketCap" = 0)
    (hpe : info.getD "trailingPE" = 0)
    (heps : info.getD "trailingEps" = 0)
    (hbeta : info.getD "beta" = 0)
    (hdy : lookupKV info.fields "dividendYield" = none ∨
      lookupKV info.fields "dividendYield" = some 0)
    (hrev : info.getD "totalRevenue" = 0)
    (hpm : info.getD "profitMargins" = 0)
    (hom : info.getD "operatingMargins" = 0)
    (hroe : info.getD "returnOnEquity" = 0)
    (hroa : info.getD "returnOnAssets" = 0)
    (hdte : info.getD "debtToEquity" = 0)
    (hcr : info.getD "currentRatio" = 0) :
    lookupKV (get_financial_metrics info) "Market Cap" =
      some (currencySymbol info ++ "N/A") ∧
    lookupKV (get_financial_metrics info) "P/E Ratio" = some "N/A" ∧
    lookupKV (get_financial_metrics info) "EPS (TTM)" =
      some (currencySymbol info ++ "N/A") ∧
    lookupKV (get_financial_metrics info) "Beta" = some "N/A" ∧
    lookupKV (get_financial_metrics info) "Dividend Yield" = some "N/A" ∧
    lookupKV (get_financial_metrics info) "Revenue (TTM)" =
      some (currencySymbol info ++ "N/A") ∧
    lookupKV (get_financial_metrics info) "Profit Margin" = some "N/A%" ∧
    lookupKV (get_financial_metrics info) "Operating Margin" = some "N/A%" ∧
    lookupKV (get_financial_metrics info) "ROE" = some "N/A%" ∧
    lookupKV (get_financial_metrics info) "ROA" = some "N/A%" ∧
    lookupKV (get_financial_metrics info) "Debt to Equity" = some "N/A" ∧
    lookupKV (get_financial_metrics info) "Current Ratio" = some "N/A" := by
  have hfn0 : format_number 0 = "N/A" := by norm_num [format_number]
  rcases hdy with hdy | hdy <;>
    simp [get_financial_metrics, lookupKV, hmc, hpe, heps, hbeta, hrev, hpm,
      hom, hroe, hroa, hdte, hcr, hdy, hfn0]

/-- Witness for C6 at metadata with every field absent. -/
theorem financial_metrics_na_rendering_witness :
    Info.getD emptyInfo "marketCap" = 0 ∧
    lookupKV emptyInfo.fields "dividendYield" = none ∧
    lookupKV (get_financial_metrics emptyInfo) "Market Cap" =
      some (currencySymbol emptyInfo ++ "N/A") ∧
    lookupKV (get_financial_metrics emptyInfo) "Dividend Yield" = some "N/A" :=
  ⟨by decide, by decide,
   (financial_metrics_na_rendering emptyInfo (by decide) (by decide) (by decide)
     (by decide) (Or.inl (by decide)) (by decide) (by decide) (by decide)
     (by decide) (by decide) (by decide) (by decide)).1,
   (financial_metrics_na_rendering emptyInfo (by decide) (by decide) (by decide)
     (by decide) (Or.inl (by decide)) (by decide) (by decide) (by decide)
     (by decide) (by decide) (by decide) (by decide)).2.2.2.2.1⟩
